import Mathlib

/-!
Shallow embedding of `scripts/daily-tech-briefing.py`: an RSS feed-to-digest
pipeline (parse → relevance filter → dedupe → categorize → render).

Python strings are modelled as `List Char`; `str.lower()` as `List.map
Char.toLower`; the substring test `kw in s` as decidable `List.IsInfix`.
Network fetching and xml parsing failures are external effects; the parsed
document is modelled as an `Except` value handed to `parse_rss`.
-/

/-- A feed item, i.e. the dict built by `parse_rss` (`source` is attached by
the caller after parsing and is the empty string until then). -/
structure Item where
  title : List Char
  link : List Char
  description : List Char
  source : List Char
deriving DecidableEq

/-- `str.lower()` restricted to the ASCII case mapping. -/
def lower (s : List Char) : List Char := s.map Char.toLower

/-- Python's substring test `kw in text`. -/
def strIn (kw text : List Char) : Bool := decide (kw <:+: text)

/-- `AI_KEYWORDS` from the script (note `"LLM"` is upper-case in the source). -/
def AI_KEYWORDS : List (List Char) :=
  ["artificial intelligence".data, "machine learning".data, "LLM".data,
   "chatgpt".data, "claude".data, "anthropic".data, "openai".data,
   "google ai".data, "gemini".data, "grok".data, "fine-tuning".data,
   "inference".data, "training".data, "transformer".data, "embedding".data,
   "rag".data, "agentic".data, "ai startup".data, "ai company".data,
   "ai model".data, "ai chip".data, "ai inference".data,
   "neural network".data, "deep learning".data, "foundation model".data]

/-- `STARTUP_KEYWORDS` from the script (the source list repeats `"raises"`). -/
def STARTUP_KEYWORDS : List (List Char) :=
  ["startup".data, "funding".data, "venture".data, "series".data,
   "seed round".data, "raises".data, "valuation".data, "backed".data,
   "led by".data, "investor".data, "vc".data, "capital".data,
   "launch".data, "founded".data, "founder".data, "ceo".data,
   "raises".data, "raised".data]

/-- `EXCLUDE_KEYWORDS` from the script. -/
def EXCLUDE_KEYWORDS : List (List Char) :=
  ["deportation".data, "ice".data, "tiktok".data, "bluetooth".data,
   "airpods".data, "airtag".data, "iphone".data, "android".data,
   "data center".data, "power outage".data, "glitches".data,
   "surge in downloads".data, "social network".data, "super mario".data,
   "hitchcock".data, "trailer".data, "movie".data, "microdrama".data,
   "vertical video".data]

/-- `kw in title_lower or kw in desc_lower` for one keyword. -/
def textMatch (item : Item) (kw : List Char) : Bool :=
  strIn kw (lower item.title) || strIn kw (lower item.description)

/-- `is_relevant` from the script: reject on any exclude keyword, otherwise
accept when an AI keyword or a startup keyword matches. -/
def is_relevant (item : Item) : Bool :=
  if EXCLUDE_KEYWORDS.any (textMatch item) then false
  else AI_KEYWORDS.any (textMatch item) || STARTUP_KEYWORDS.any (textMatch item)

/-- The two bucket labels returned by `categorize_item`. -/
inductive Category where
  | startup_vc
  | ai_ml
deriving DecidableEq

/-- `categorize_item` from the script: startup keywords first, `ai_ml` as the
fallback; the AI keyword list is not consulted. -/
def categorize_item (item : Item) : Category :=
  if STARTUP_KEYWORDS.any (textMatch item) then .startup_vc else .ai_ml

/-- The relevance predicate as a Prop on one keyword: `kw` occurs in the
lowercased title or lowercased summary. -/
def kwHits (item : Item) (kw : List Char) : Prop :=
  kw <:+: lower item.title ∨ kw <:+: lower item.description

instance (item : Item) (kw : List Char) : Decidable (kwHits item kw) := by
  unfold kwHits; infer_instance

theorem textMatch_eq (item : Item) (kw : List Char) :
    textMatch item kw = true ↔ kwHits item kw := by
  simp [textMatch, strIn, kwHits]

/-- Sample item hitting an exclude keyword together with an inclusion keyword. -/
def itExcl : Item := ⟨"New iPhone AI features".data, "l".data, [], "s".data⟩

/-- Sample item hitting only an AI keyword. -/
def itIncl : Item := ⟨"deep learning advance".data, "l".data, [], "s".data⟩

/-- Sample items equal in title and summary but different in link and source. -/
def itL1 : Item := ⟨"anthropic news".data, "link1".data, "d".data, "src1".data⟩

/-- Second sample for the noninterference pair. -/
def itL2 : Item := ⟨"anthropic news".data, "link2".data, "d".data, "src2".data⟩

/-- C1: `is_relevant` returns false whenever some exclude keyword occurs in the
lowercased title or summary, regardless of inclusion matches; otherwise it
returns true iff at least one AI keyword or startup keyword occurs there. -/
theorem c1_exclusion_dominates (item : Item) :
    ((∃ kw ∈ EXCLUDE_KEYWORDS, kwHits item kw) → is_relevant item = false) ∧
    (¬ (∃ kw ∈ EXCLUDE_KEYWORDS, kwHits item kw) →
      (is_relevant item = true ↔
        (∃ kw ∈ AI_KEYWORDS, kwHits item kw) ∨
        (∃ kw ∈ STARTUP_KEYWORDS, kwHits item kw))) := by
  constructor
  · rintro ⟨kw, hmem, hhit⟩
    have hex : EXCLUDE_KEYWORDS.any (textMatch item) = true :=
      List.any_eq_true.mpr ⟨kw, hmem, (textMatch_eq item kw).mpr hhit⟩
    simp [is_relevant, hex]
  · intro h
    have hex : ¬ EXCLUDE_KEYWORDS.any (textMatch item) = true := by
      rw [List.any_eq_true]
      simpa [textMatch_eq] using h
    simp [is_relevant, hex, List.any_eq_true, textMatch_eq]

/-- Witness for C1 at concrete items: an item whose text contains the exclude
keyword "iphone" (despite also matching "ai ..." inclusion keywords) is
rejected, and an item matching only "deep learning" is accepted. -/
theorem c1_witness : is_relevant itExcl = false ∧ is_relevant itIncl = true :=
  ⟨(c1_exclusion_dominates itExcl).1 (by decide),
   ((c1_exclusion_dominates itIncl).2 (by decide)).mpr (Or.inl (by decide))⟩

/-- C2: `categorize_item` returns `startup_vc` iff some startup keyword occurs
in the lowercased title or summary, and `ai_ml` exactly otherwise; the AI
keyword list plays no role in this characterization, so `ai_ml` is a
fallback, not a matched category. -/
theorem c2_categorize_fallback (item : Item) :
    (categorize_item item = .startup_vc ↔ ∃ kw ∈ STARTUP_KEYWORDS, kwHits item kw) ∧
    (categorize_item item = .ai_ml ↔ ¬ ∃ kw ∈ STARTUP_KEYWORDS, kwHits item kw) := by
  unfold categorize_item
  by_cases h : STARTUP_KEYWORDS.any (textMatch item) = true
  · rw [if_pos h]
    rw [List.any_eq_true] at h
    simp only [textMatch_eq] at h
    exact ⟨iff_of_true rfl h, iff_of_false (by simp) (not_not_intro h)⟩
  · rw [if_neg h]
    rw [List.any_eq_true] at h
    simp only [textMatch_eq] at h
    exact ⟨iff_of_false (by simp) h, iff_of_true rfl h⟩

/-- C9: relevance and categorization depend only on the title and the
summary; two items agreeing there get identical verdicts whatever their
link and source fields are. -/
theorem c9_link_source_independent (a b : Item)
    (ht : a.title = b.title) (hd : a.description = b.description) :
    is_relevant a = is_relevant b ∧ categorize_item a = categorize_item b := by
  have hm : textMatch a = textMatch b := by
    funext kw
    simp [textMatch, ht, hd]
  exact ⟨by simp [is_relevant, hm], by simp [categorize_item, hm]⟩

/-- Witness for C9: two concrete items with the same text but different link
and source fields get the same verdicts. -/
theorem c9_witness :
    is_relevant itL1 = is_relevant itL2 ∧
    categorize_item itL1 = categorize_item itL2 :=
  c9_link_source_independent itL1 itL2 rfl rfl

/-- C6 (code bug): the keyword lists are pairwise disjoint as sets, but the
AI keyword `"LLM"` is not lowercase, so it can never match the lowercased
entry text; as a consequence an entry titled "LLM breakthrough" is filtered
out even though the spec's lowercase-keyword profile would accept it. -/
theorem c6_llm_keyword_not_lowercase :
    "LLM".data ∈ AI_KEYWORDS ∧
    lower "LLM".data ≠ "LLM".data ∧
    is_relevant ⟨"LLM breakthrough".data, "l".data, [], "s".data⟩ = false ∧
    AI_KEYWORDS.all
      (fun k => !STARTUP_KEYWORDS.contains k && !EXCLUDE_KEYWORDS.contains k) = true ∧
    STARTUP_KEYWORDS.all (fun k => !EXCLUDE_KEYWORDS.contains k) = true := by
  decide

/-- The dedup key used by `format_briefing`: `item['title'].lower()`. -/
def key (i : Item) : List Char := lower i.title

/-- The dedup loop of `format_briefing` (lines 165-173) with the relevance
test factored out: `seen` is the `seen_titles` set. -/
def dedupeAux : List (List Char) → List Item → List Item
  | _, [] => []
  | seen, i :: rest =>
    if key i ∈ seen then dedupeAux seen rest
    else i :: dedupeAux (key i :: seen) rest

/-- Deduplication by lowercased title, first occurrence wins. -/
def dedupe (l : List Item) : List Item := dedupeAux [] l

/-- The fused filter-and-dedup loop exactly as in `format_briefing`:
non-relevant items are skipped and do not touch `seen_titles`. -/
def relevantDedupAux : List (List Char) → List Item → List Item
  | _, [] => []
  | seen, i :: rest =>
    if is_relevant i then
      if key i ∈ seen then relevantDedupAux seen rest
      else i :: relevantDedupAux (key i :: seen) rest
    else relevantDedupAux seen rest

/-- The `relevant_items` list built by `format_briefing` from the pooled items. -/
def relevant_items (l : List Item) : List Item := relevantDedupAux [] l

theorem dedupeAux_sublist (seen : List (List Char)) (l : List Item) :
    (dedupeAux seen l).Sublist l := by
  induction l generalizing seen with
  | nil => simp [dedupeAux]
  | cons i rest ih =>
    by_cases h : key i ∈ seen
    · simpa [dedupeAux, h] using (ih seen).cons i
    · simpa [dedupeAux, h] using (ih (key i :: seen)).cons₂ i

theorem dedupeAux_keys (seen : List (List Char)) (l : List Item) :
    (∀ j ∈ dedupeAux seen l, key j ∉ seen) ∧
    (dedupeAux seen l).Pairwise (fun a b => key a ≠ key b) := by
  induction l generalizing seen with
  | nil => simp [dedupeAux]
  | cons i rest ih =>
    by_cases h : key i ∈ seen
    · simpa [dedupeAux, h] using ih seen
    · obtain ⟨h1, h2⟩ := ih (key i :: seen)
      simp only [dedupeAux, if_neg h]
      refine ⟨?_, ?_⟩
      · intro j hj
        rcases List.mem_cons.mp hj with rfl | hj'
        · exact h
        · intro hs
          exact h1 j hj' (List.mem_cons_of_mem _ hs)
      · refine List.Pairwise.cons ?_ h2
        intro b hb
        have : key b ∉ key i :: seen := h1 b hb
        exact fun e => this (e ▸ List.mem_cons_self _ _)

theorem dedupeAux_fixed (l : List Item) :
    ∀ seen, l.Pairwise (fun a b => key a ≠ key b) →
      (∀ j ∈ l, key j ∉ seen) → dedupeAux seen l = l := by
  induction l with
  | nil => intro seen _ _; rfl
  | cons i rest ih =>
    intro seen hp hs
    have hni : key i ∉ seen := hs i (List.mem_cons_self _ _)
    rw [List.pairwise_cons] at hp
    simp only [dedupeAux, if_neg hni]
    refine congrArg (i :: ·) (ih (key i :: seen) hp.2 ?_)
    intro j hj hmem
    rcases List.mem_cons.mp hmem with e | hsj
    · exact hp.1 j hj e.symm
    · exact hs j (List.mem_cons_of_mem _ hj) hsj

theorem dedupeAux_find (seen : List (List Char)) (l : List Item) (c : List Char)
    (hc : c ∉ seen) :
    (dedupeAux seen l).find? (fun j => key j == c) =
      l.find? (fun j => key j == c) := by
  induction l generalizing seen with
  | nil => rfl
  | cons i rest ih =>
    by_cases h : key i ∈ seen
    · have hne : (key i == c) = false := by
        rw [beq_eq_false_iff_ne]
        intro e
        exact hc (e ▸ h)
      simp only [dedupeAux, if_pos h, List.find?, hne]
      exact ih seen hc
    · simp only [dedupeAux, if_neg h]
      by_cases he : (key i == c) = true
      · simp only [List.find?, he]
      · have he' : (key i == c) = false := by simpa using he
        simp only [List.find?, he']
        refine ih (key i :: seen) ?_
        intro hmem
        rcases List.mem_cons.mp hmem with e | hsc
        · exact he (by simp [e])
        · exact hc hsc

theorem relevantDedupAux_eq (seen : List (List Char)) (l : List Item) :
    relevantDedupAux seen l = dedupeAux seen (l.filter is_relevant) := by
  induction l generalizing seen with
  | nil => rfl
  | cons i rest ih =>
    by_cases hr : is_relevant i
    · simp [relevantDedupAux, dedupeAux, List.filter_cons, hr, ih]
    · have hr' : is_relevant i = false := by simpa using hr
      simp [relevantDedupAux, List.filter_cons, hr', ih]

/-- C5: deduplication is order-preserving (the output is a sublist of the
input, so each kept entry keeps its link and source), first-occurrence-wins
(looking up any input item's lowercased title in the output finds exactly the
first input entry with that title), idempotent, and leaves no two entries
with the same lowercased title — in particular the pooled relevant set of
`format_briefing` has pairwise distinct lowercased titles. -/
theorem c5_dedupe_first_wins (l : List Item) :
    (dedupe l).Sublist l ∧
    (∀ i ∈ l, (dedupe l).find? (fun j => key j == key i) =
      l.find? (fun j => key j == key i)) ∧
    dedupe (dedupe l) = dedupe l ∧
    (dedupe l).Pairwise (fun a b => key a ≠ key b) ∧
    (relevant_items l).Pairwise (fun a b => key a ≠ key b) := by
  refine ⟨dedupeAux_sublist [] l, ?_, ?_, (dedupeAux_keys [] l).2, ?_⟩
  · intro i _
    exact dedupeAux_find [] l (key i) (List.not_mem_nil _)
  · exact dedupeAux_fixed _ [] (dedupeAux_keys [] l).2 fun j _ => List.not_mem_nil _
  · rw [relevant_items, relevantDedupAux_eq]
    exact (dedupeAux_keys [] _).2

/-- First member of a duplicate-title pair (same lowercased title as the
second, different link and feed). -/
def itDupA : Item := ⟨"Startup Raises Cash".data, "l1".data, [], "f1".data⟩

/-- Second member of the duplicate-title pair. -/
def itDupB : Item := ⟨"startup raises cash".data, "l2".data, [], "f2".data⟩

/-- Witness for C5: with two entries sharing a lowercased title, looking up
that title in the deduplicated output finds the first entry, link and all. -/
theorem c5_witness :
    (dedupe [itDupA, itDupB]).find? (fun j => key j == key itDupB) =
      [itDupA, itDupB].find? (fun j => key j == key itDupB) :=
  (c5_dedupe_first_wins [itDupA, itDupB]).2.1 itDupB (by decide)

/-- The bucket-splitting loop of `format_briefing` (lines 179-184), applied
to `relevant_items[:15]` by `bucketize`; returns (startup_vc, ai_ml) buckets
preserving relative order. -/
def splitBuckets : List Item → List Item × List Item
  | [] => ([], [])
  | i :: rest =>
    let p := splitBuckets rest
    match categorize_item i with
    | .startup_vc => (i :: p.1, p.2)
    | .ai_ml => (p.1, i :: p.2)

/-- `for item in relevant_items[:15]` followed by the category split. -/
def bucketize (relevant : List Item) : List Item × List Item :=
  splitBuckets (relevant.take 15)

/-- The four characters opening every bullet title line. -/
def bulletMark : List Char := ['•', ' ', '*', '*']

/-- The title line of a bullet. -/
def titleLine (i : Item) : List Char := bulletMark ++ i.title ++ "**".data

/-- The four characters opening every bullet source line. -/
def srcPre : List Char := [' ', ' ', '(', '[']

/-- The indented source-and-link line of a bullet. -/
def srcLine (i : Item) : List Char :=
  srcPre ++ i.source ++ "](".data ++ i.link ++ "))".data

/-- The capped bullet-emission loop of `format_briefing`: two lines per item
for the first `cap` items (the source counts with `ai_count` / `vc_count`
and breaks once the cap is reached). -/
def cappedBullets : Nat → List Item → List (List Char)
  | _, [] => []
  | 0, _ :: _ => []
  | cap + 1, i :: rest => titleLine i :: srcLine i :: cappedBullets cap rest

/-- The fixed first line of the digest. -/
def headerTitle : List Char := "⚡ **Daily AI & Startup Briefing**".data

/-- The AI section header line. -/
def aiHeader : List Char := "**🤖 AI & ML Highlights:**".data

/-- The Startup/VC section header line. -/
def vcHeader : List Char := "**💰 Startup & VC News:**".data

/-- The date line, given the `%Y-%m-%d` UTC date string. -/
def dateLine (date : List Char) : List Char := "📅 ".data ++ date

/-- All lines of the digest built by `format_briefing`, given the UTC date
string and the pooled items (fetching is an external effect, so the pooled
list is a parameter). -/
def briefing_lines (date : List Char) (all_items : List Item) : List (List Char) :=
  headerTitle :: dateLine date :: [] :: aiHeader :: [] ::
    (cappedBullets 7 (bucketize (relevant_items all_items)).2 ++
      ([] :: vcHeader :: [] ::
        cappedBullets 8 (bucketize (relevant_items all_items)).1))

/-- The newline separator of `"\n".join(briefing_lines)`. -/
def newline : List Char := ['\n']

/-- The digest text returned by `format_briefing`. -/
def briefing_text (date : List Char) (all_items : List Item) : List Char :=
  List.intercalate newline (briefing_lines date all_items)

/-- Number of bullet title lines among the given lines. -/
def countBullets (lines : List (List Char)) : Nat :=
  (lines.filter fun l => bulletMark.isPrefixOf l).length

theorem isPrefixOf_self_append (s t : List Char) : s.isPrefixOf (s ++ t) = true := by
  induction s with
  | nil => simp [List.isPrefixOf]
  | cons a as ih => simp [List.isPrefixOf, ih]

theorem bullet_titleLine (i : Item) : bulletMark.isPrefixOf (titleLine i) = true := by
  rw [titleLine]
  exact isPrefixOf_self_append bulletMark (i.title ++ "**".data)

theorem not_bullet_srcLine (i : Item) : bulletMark.isPrefixOf (srcLine i) = false := by
  have h : (('•' : Char) == ' ') = false := by decide
  simp [srcLine, srcPre, bulletMark, List.isPrefixOf, h]

theorem countBullets_cons (l : List Char) (ls : List (List Char)) :
    countBullets (l :: ls) =
      (if bulletMark.isPrefixOf l then 1 else 0) + countBullets ls := by
  simp only [countBullets, List.filter_cons]
  split
  · simp [Nat.add_comm]
  · simp

theorem cappedBullets_count (cap : Nat) (l : List Item) :
    countBullets (cappedBullets cap l) = min cap l.length := by
  induction l generalizing cap with
  | nil => cases cap <;> simp [cappedBullets, countBullets]
  | cons i rest ih =>
    cases cap with
    | zero => simp [cappedBullets, countBullets]
    | succ n =>
      rw [cappedBullets, countBullets_cons, countBullets_cons,
        bullet_titleLine, not_bullet_srcLine, ih n]
      simp only [List.length_cons, Nat.succ_min_succ, if_true, Bool.false_eq_true, if_false]
      omega

theorem splitBuckets_all_ai (l : List Item)
    (h : ∀ i ∈ l, categorize_item i = .ai_ml) : splitBuckets l = ([], l) := by
  induction l with
  | nil => rfl
  | cons i rest ih =>
    have hi := h i (List.mem_cons_self _ _)
    have hr := ih fun j hj => h j (List.mem_cons_of_mem _ hj)
    simp [splitBuckets, hi, hr]

theorem splitBuckets_all_vc (l : List Item)
    (h : ∀ i ∈ l, categorize_item i = .startup_vc) : splitBuckets l = (l, []) := by
  induction l with
  | nil => rfl
  | cons i rest ih =>
    have hi := h i (List.mem_cons_self _ _)
    have hr := ih fun j hj => h j (List.mem_cons_of_mem _ hj)
    simp [splitBuckets, hi, hr]

/-- C3: the renderer only looks at the first 15 entries of its input before
bucket assignment, renders at most 7 AI/ML and at most 8 Startup/VC bullets,
and with an input of 20 or more AI/ML-eligible (resp. startup-eligible)
entries renders exactly 7 (resp. exactly 8) bullets in that bucket. -/
theorem c3_render_caps (r : List Item) :
    bucketize r = bucketize (r.take 15) ∧
    countBullets (cappedBullets 7 (bucketize r).2) ≤ 7 ∧
    countBullets (cappedBullets 8 (bucketize r).1) ≤ 8 ∧
    ((∀ i ∈ r, categorize_item i = .ai_ml) → 20 ≤ r.length →
      countBullets (cappedBullets 7 (bucketize r).2) = 7) ∧
    ((∀ i ∈ r, categorize_item i = .startup_vc) → 20 ≤ r.length →
      countBullets (cappedBullets 8 (bucketize r).1) = 8) := by
  refine ⟨?_, ?_, ?_, ?_, ?_⟩
  · rw [bucketize, bucketize, List.take_take, Nat.min_self]
  · rw [cappedBullets_count]
    exact Nat.min_le_left _ _
  · rw [cappedBullets_count]
    exact Nat.min_le_left _ _
  · intro h hlen
    have hb : splitBuckets (r.take 15) = ([], r.take 15) :=
      splitBuckets_all_ai _ fun i hi => h i (List.mem_of_mem_take hi)
    rw [bucketize, hb, cappedBullets_count, List.length_take]
    omega
  · intro h hlen
    have hb : splitBuckets (r.take 15) = (r.take 15, []) :=
      splitBuckets_all_vc _ fun i hi => h i (List.mem_of_mem_take hi)
    rw [bucketize, hb, cappedBullets_count, List.length_take]
    omega

/-- A startup-categorized relevant sample item. -/
def itVC : Item := ⟨"startup raises cash".data, "lv".data, [], "fv".data⟩

/-- Witness for C3: 20 copies of an AI-eligible entry render exactly 7 AI/ML
bullets, and 20 copies of a startup-eligible entry render exactly 8
Startup/VC bullets. -/
theorem c3_witness :
    countBullets (cappedBullets 7 (bucketize (List.replicate 20 itIncl)).2) = 7 ∧
    countBullets (cappedBullets 8 (bucketize (List.replicate 20 itVC)).1) = 8 :=
  ⟨(c3_render_caps (List.replicate 20 itIncl)).2.2.2.1 (by decide) (by decide),
   (c3_render_caps (List.replicate 20 itVC)).2.2.2.2 (by decide) (by decide)⟩

/-- C10: whatever the date and the pooled items — including an empty pool
when every fetch failed — the digest contains the fixed title line, the date
line, the AI/ML section header and the Startup/VC section header in that
relative order, and is never the empty list of lines. -/
theorem c10_header_scaffold (date : List Char) (all_items : List Item) :
    ([headerTitle, dateLine date, aiHeader, vcHeader]).Sublist
      (briefing_lines date all_items) ∧
    briefing_lines date all_items ≠ [] := by
  refine ⟨?_, by simp [briefing_lines]⟩
  rw [briefing_lines]
  refine .cons₂ _ (.cons₂ _ (.cons _ (.cons₂ _ (.cons _ ?_))))
  refine List.Sublist.trans ?_ (List.sublist_append_right _ _)
  exact .cons _ (.cons₂ _ (List.nil_sublist _))

theorem getLast?_cons_getD {α : Type} (a : α) (l : List α) :
    (a :: l).getLast? = some ((l.getLast?).getD a) := by
  induction l generalizing a with
  | nil => rfl
  | cons b m ih =>
    rw [List.getLast?_cons_cons, ih b]
    simp [ih b]

theorem cappedBullets_getLast (cap : Nat) (l : List Item) :
    (cappedBullets cap l).getLast? = ((l.take cap).getLast?).map srcLine := by
  induction l generalizing cap with
  | nil => cases cap <;> rfl
  | cons i rest ih =>
    cases cap with
    | zero => rfl
    | succ n =>
      rw [cappedBullets, List.take_succ_cons, getLast?_cons_getD,
        getLast?_cons_getD, getLast?_cons_getD, ih n]
      cases h : (rest.take n).getLast? <;> simp

theorem briefing_lines_split (date : List Char) (all_items : List Item) :
    briefing_lines date all_items =
      (headerTitle :: dateLine date :: [] :: aiHeader :: [] ::
        cappedBullets 7 (bucketize (relevant_items all_items)).2) ++
      ([] :: vcHeader :: [] ::
        cappedBullets 8 (bucketize (relevant_items all_items)).1) := by
  simp [briefing_lines]

theorem briefing_lines_getLast (date : List Char) (all_items : List Item) :
    (briefing_lines date all_items).getLast? =
      some (((((bucketize (relevant_items all_items)).1.take 8).getLast?).map
        srcLine).getD []) := by
  rw [briefing_lines_split, List.getLast?_append_of_ne_nil _ (by simp)]
  rw [getLast?_cons_getD, getLast?_cons_getD, getLast?_cons_getD,
    cappedBullets_getLast]
  cases h : ((bucketize (relevant_items all_items)).1.take 8).getLast? <;> simp

/-- C8 amended: the digest's lines are joined with a single newline
separator; when at least one Startup/VC bullet is rendered the final line of
the digest is that bullet's source line, but when the Startup/VC bucket is
empty the digest ends with the Startup/VC section scaffold, whose final line
is blank. -/
theorem c8_join_and_tail (date : List Char) (all_items : List Item) :
    briefing_text date all_items =
      List.intercalate newline (briefing_lines date all_items) ∧
    (∀ it, ((bucketize (relevant_items all_items)).1.take 8).getLast? = some it →
      (briefing_lines date all_items).getLast? = some (srcLine it)) ∧
    (((bucketize (relevant_items all_items)).1.take 8).getLast? = none →
      (briefing_lines date all_items).getLast? = some []) := by
  refine ⟨rfl, ?_, ?_⟩
  · intro it h
    rw [briefing_lines_getLast, h]
    rfl
  · intro h
    rw [briefing_lines_getLast, h]
    rfl

/-- C8 counterexample: with a pool holding a single AI item the digest renders
exactly one bullet and still ends with a blank line — the Startup/VC scaffold
follows the final rendered entry — so the rendered text does have trailing
content beyond the last bullet. -/
theorem c8_counterexample :
    countBullets (briefing_lines "2026-10-12".data [itIncl]) = 1 ∧
    (briefing_lines "2026-10-12".data [itIncl]).getLast? = some [] := by
  decide

/-- Witness for C8: with one startup item in the pool the digest's last line
is that bullet's source line. -/
theorem c8_witness :
    (briefing_lines "2026-10-12".data [itVC]).getLast? = some (srcLine itVC) :=
  (c8_join_and_tail "2026-10-12".data [itVC]).2.1 itVC (by decide)

/-- Model of an `xml.etree.ElementTree` element: tag, attributes, text
content and child elements. -/
inductive XmlElem where
  | mk (tag : List Char) (attrs : List (List Char × List Char))
      (text : Option (List Char)) (children : List XmlElem)

/-- The element's tag. -/
def XmlElem.tag : XmlElem → List Char
  | .mk t _ _ _ => t

/-- The element's attribute list. -/
def XmlElem.attrs : XmlElem → List (List Char × List Char)
  | .mk _ a _ _ => a

/-- The element's text content (`None` when absent). -/
def XmlElem.text : XmlElem → Option (List Char)
  | .mk _ _ x _ => x

/-- The element's children in document order. -/
def XmlElem.children : XmlElem → List XmlElem
  | .mk _ _ _ c => c

mutual

/-- All proper descendants of an element in document (preorder) order, as
iterated by `findall('.//tag')`. -/
def XmlElem.descendants : XmlElem → List XmlElem
  | .mk _ _ _ cs => descendantsList cs

/-- Preorder traversal of a forest of elements. -/
def descendantsList : List XmlElem → List XmlElem
  | [] => []
  | c :: cs => (c :: XmlElem.descendants c) ++ descendantsList cs

end

/-- `elem.find(tag)`: the first direct child with the given tag. -/
def XmlElem.find (e : XmlElem) (t : List Char) : Option XmlElem :=
  e.children.find? fun c => c.tag == t

/-- `root.findall('.//' + tag)`: every descendant with the given tag. -/
def XmlElem.findall (e : XmlElem) (t : List Char) : List XmlElem :=
  e.descendants.filter fun c => c.tag == t

/-- `elem.get(name)`: attribute lookup, `None` when absent. -/
def XmlElem.get (e : XmlElem) (a : List Char) : Option (List Char) :=
  (e.attrs.find? fun p => p.1 == a).map Prod.snd

/-- Wrap a tag in the Atom namespace, as the script's namespaced lookups do. -/
def atomTag (t : List Char) : List Char :=
  "\x7bhttp://www.w3.org/2005/Atom\x7d".data ++ t

/-- Title resolution (lines 80-85): plain `title`, then Atom `title`;
`text or ""` when found; empty otherwise. -/
def resolveTitle (elem : XmlElem) : List Char :=
  match elem.find "title".data with
  | some te => te.text.getD []
  | none =>
    match elem.find (atomTag "title".data) with
    | some te => te.text.getD []
    | none => []

/-- Link resolution (lines 87-95): plain `link`, then Atom `link`; a truthy
`href` attribute is preferred over the node's text. -/
def resolveLink (elem : XmlElem) : List Char :=
  match
    (match elem.find "link".data with
     | some le => some le
     | none => elem.find (atomTag "link".data)) with
  | none => []
  | some le =>
    match le.get "href".data with
    | some h => if h = [] then le.text.getD [] else h
    | none => le.text.getD []

/-- Summary resolution (lines 97-104): `description`, then `summary`, then
Atom `summary`; `text or ""` when found. -/
def resolveDesc (elem : XmlElem) : List Char :=
  match elem.find "description".data with
  | some de => de.text.getD []
  | none =>
    match elem.find "summary".data with
    | some de => de.text.getD []
    | none =>
      match elem.find (atomTag "summary".data) with
      | some de => de.text.getD []
      | none => []

/-- Python's `str.strip()` whitespace class (ASCII part). -/
def pyIsSpace (c : Char) : Bool :=
  c == ' ' || c == '\t' || c == '\n' || c == '\x0b' || c == '\x0c' || c == '\r'

/-- Python's `str.strip()`. -/
def pyStrip (s : List Char) : List Char :=
  ((s.dropWhile pyIsSpace).reverse.dropWhile pyIsSpace).reverse

/-- Lines 106-111 of the script: the item dict is appended iff the resolved
title and link are non-empty (truthiness is checked before stripping); the
stored title and link are then stripped, and the stored summary is stripped
and truncated to 200 characters, with a missing summary stored as empty. -/
def emitEntry (title link description : List Char) : Option Item :=
  if title ≠ [] ∧ link ≠ [] then
    some { title := pyStrip title, link := pyStrip link,
           description :=
             if description ≠ [] then (pyStrip description).take 200 else [],
           source := [] }
  else none

/-- One iteration of the `for elem in item_elements` loop. -/
def processElem (elem : XmlElem) : Option Item :=
  emitEntry (resolveTitle elem) (resolveLink elem) (resolveDesc elem)

/-- `item_elements`: plain `item` nodes followed by namespaced Atom `entry`
nodes. -/
def itemNodes (root : XmlElem) : List XmlElem :=
  root.findall "item".data ++ root.findall (atomTag "entry".data)

/-- `parse_rss`: the untrusted structural parse (`ET.fromstring`) is the
`Except` input; the surrounding try/except turns any parse failure into the
empty item list, and a successful parse processes every candidate node. -/
def parse_rss (doc : Except Unit XmlElem) : List Item :=
  match doc with
  | .error _ => []
  | .ok root => (itemNodes root).filterMap processElem

/-- C7: a failed structural parse never escapes `parse_rss` — for every
failure outcome the function is still defined and returns the empty entry
list, so the failing source contributes nothing. -/
theorem c7_parse_failure_empty (e : Unit) : parse_rss (Except.error e) = [] := rfl

/-- C4 counterexample: the claim that every emitted entry has a non-empty
(after trimming) title is false — a node whose title text is a single space
and whose link is non-empty passes the pre-strip truthiness test and is
emitted with an empty title. -/
theorem c4_counterexample :
    ¬ ∀ (elem : XmlElem) (it : Item), processElem elem = some it →
      it.title ≠ [] := by
  intro h
  exact
    h (.mk "item".data [] none
        [.mk "title".data [] (some " ".data) [],
         .mk "link".data [] (some "x".data) []])
      ⟨[], "x".data, [], []⟩ (by decide) rfl

/-- C4 amended: an entry is emitted iff the resolved title and link are
non-empty before trimming; the stored title and link are the trimmed values
(possibly empty when the raw value was whitespace-only), and the stored
summary is the trimmed raw summary truncated to at most 200 characters, a
missing summary being stored as empty rather than an error. -/
theorem c4_emit_conditions (elem : XmlElem) :
    ((processElem elem).isSome ↔ resolveTitle elem ≠ [] ∧ resolveLink elem ≠ []) ∧
    (∀ it, processElem elem = some it →
      it.title = pyStrip (resolveTitle elem) ∧
      it.link = pyStrip (resolveLink elem) ∧
      it.description = (pyStrip (resolveDesc elem)).take 200 ∧
      it.description.length ≤ 200) := by
  unfold processElem emitEntry
  by_cases h : resolveTitle elem ≠ [] ∧ resolveLink elem ≠ []
  · rw [if_pos h]
    refine ⟨by simp [h], ?_⟩
    intro it hit
    obtain rfl := (Option.some.inj hit).symm
    have hdesc :
        (if resolveDesc elem ≠ [] then (pyStrip (resolveDesc elem)).take 200
          else []) = (pyStrip (resolveDesc elem)).take 200 := by
      by_cases hd : resolveDesc elem ≠ []
      · rw [if_pos hd]
      · rw [if_neg hd]
        have he : resolveDesc elem = [] := not_not.mp hd
        rw [he]
        rfl
    refine ⟨rfl, rfl, hdesc, ?_⟩
    show (if resolveDesc elem ≠ [] then (pyStrip (resolveDesc elem)).take 200
      else []).length ≤ 200
    rw [hdesc, List.length_take]
    exact Nat.min_le_left _ _
  · rw [if_neg h]
    exact ⟨by simpa using h, fun it hit => Option.noConfusion hit⟩

/-- A well-formed sample node with padded title, link and description texts. -/
def nodeGood : XmlElem :=
  .mk "item".data [] none
    [.mk "title".data [] (some " Title ".data) [],
     .mk "link".data [] (some "http://x".data) [],
     .mk "description".data [] (some " desc ".data) []]

/-- Witness for C4 at the sample node: the emitted entry carries the trimmed
title and link and the trimmed, truncated summary. -/
theorem c4_witness :
    (⟨"Title".data, "http://x".data, "desc".data, []⟩ : Item).title =
        pyStrip (resolveTitle nodeGood) ∧
    (⟨"Title".data, "http://x".data, "desc".data, []⟩ : Item).link =
        pyStrip (resolveLink nodeGood) ∧
    (⟨"Title".data, "http://x".data, "desc".data, []⟩ : Item).description =
        (pyStrip (resolveDesc nodeGood)).take 200 ∧
    (⟨"Title".data, "http://x".data, "desc".data, []⟩ : Item).description.length
      ≤ 200 :=
  (c4_emit_conditions nodeGood).2
    ⟨"Title".data, "http://x".data, "desc".data, []⟩ (by decide)
